import Mathlib

/-!
Formal model of the two Fibonacci arithmetizations in this repository:
the wide layout (`src/example1.rs`, three advice columns, one addition per
row, chained by copy constraints) and the narrow layout (`src/fibo2.rs`,
one advice column, row-relative gate queries).  Both are shallowly embedded:
synthesis is modelled as the trace of cells, selector enablings, copy
constraints and instance bindings it emits, and the external satisfiability
check is modelled from the specification of its contract.
-/

namespace FibCircuits

/-- Order of the Pasta base field, the `Fp` used by both `main` functions. -/
def pastaP : ℕ := 28948022309329048855892746252171976963363056481941560715954676764349967630337

/-- The concrete field `halo2_proofs::pasta::Fp`. -/
abbrev Fp := ZMod pastaP

/-- Addition of `Value<F>` as halo2 defines it (zip, unknown-propagating):
used by `fibo2.rs` line 80, `a_cell.value().copied() + b_cell.value()`. -/
def vAdd {F : Type} [Add F] (a b : Option F) : Option F :=
  a.bind fun x => b.map fun y => x + y

/-- Polynomial expressions built by the gate closures: the (single) selector
query, advice-column queries at a row offset, and ring operations. -/
inductive Expr : Type
  | sel : Expr
  | advice : ℕ → ℤ → Expr
  | add : Expr → Expr → Expr
  | sub : Expr → Expr → Expr
  | mul : Expr → Expr → Expr
deriving Repr, DecidableEq

/-- Evaluate a gate expression given the selector value and an advice query
function (column, row offset relative to the gate instance). -/
def Expr.eval {F : Type} [CommRing F] (s : F) (adv : ℕ → ℤ → F) : Expr → F
  | .sel => s
  | .advice c r => adv c r
  | .add e₁ e₂ => e₁.eval s adv + e₂.eval s adv
  | .sub e₁ e₂ => e₁.eval s adv - e₂.eval s adv
  | .mul e₁ e₂ => e₁.eval s adv * e₂.eval s adv

/-- A named gate: `meta.create_gate(name, ...)` returning a list of
constraint polynomials. -/
structure Gate where
  name : String
  polys : List Expr
deriving Repr, DecidableEq

instance : Inhabited Gate := ⟨⟨"", []⟩⟩

/-- A cell location in the advice table: (absolute row, column index). -/
structure Cell where
  row : ℕ
  col : ℕ
deriving Repr, DecidableEq

/-- Abstract error returned by the layout capability
(`halo2_proofs::plonk::Error`); only its identity matters here. -/
inductive LayoutError : Type
  | notEnoughRowsAvailable (k : ℕ) : LayoutError
  | synthesisFailure (code : ℕ) : LayoutError
deriving Repr, DecidableEq

namespace Example1

/-- Handle produced by an assignment (`ACell<F>`), carrying the assigned
cell's location and its (possibly unknown) value. -/
structure ACell (F : Type) where
  cell : Cell
  val : Option F
deriving Repr, DecidableEq

/-- Configuration data produced by `FiboChip::configure` in `example1.rs`:
three advice columns (indices 0,1,2), equality enabled on all advice columns
and on the instance column, and the single gate `"add"` querying the three
advice columns at the current row. -/
structure FiboConfig where
  advice : List ℕ
  eqAdvice : List ℕ
  eqInstance : Bool
  gates : List Gate
deriving Repr, DecidableEq

/-- Model of `FiboChip::configure` in `example1.rs` (lines 30-55). -/
def configure : FiboConfig :=
  { advice := [0, 1, 2]
    eqAdvice := [0, 1, 2]
    eqInstance := true
    gates := [{ name := "add"
                polys := [Expr.mul Expr.sel
                  (Expr.sub (Expr.add (Expr.advice 0 0) (Expr.advice 1 0))
                    (Expr.advice 2 0))] }] }

/-- The trace of synthesis for the wide layout.  Every region opened by the
chip is a single row, and the simple floor planner places region k at
absolute row k, so the advice table is a list of (col a, col b, col c)
triples indexed by absolute row. -/
structure SynthState (F : Type) where
  table : List (Option F × Option F × Option F)
  selOn : List ℕ
  copies : List (Cell × Cell)
  instCopies : List (Cell × ℕ)
deriving Repr, DecidableEq

/-- Model of `FiboChip::assign_first_row` (lines 57-82): enables the selector on the
region's row, assigns witness values a and b to columns 0 and 1 and their
sum to column 2, and returns the three handles.  (The `Result` of
`selector.enable` is discarded by the source, so the success trace has no
trace of it beyond the enabling itself.) -/
def assign_first_row {F : Type} [CommRing F] (st : SynthState F) (a b : Option F) :
    SynthState F × (ACell F × ACell F × ACell F) :=
  let r := st.table.length
  let a_cell : ACell F := ⟨⟨r, 0⟩, a⟩
  let b_cell : ACell F := ⟨⟨r, 1⟩, b⟩
  let c_val := a.bind fun x => b.map fun y => x + y
  let c_cell : ACell F := ⟨⟨r, 2⟩, c_val⟩
  ({ st with
      table := st.table ++ [(a, b, c_val)]
      selOn := st.selOn ++ [r] },
   (a_cell, b_cell, c_cell))

/-- Model of `FiboChip::assign_row` (lines 84-115): a fresh single-row region; the
previous row's b handle is copied into column 0 and the previous c handle
into column 1 (`copy_advice` assigns the equal value and records the copy
constraint), and column 2 receives their sum. -/
def assign_row {F : Type} [CommRing F] (st : SynthState F) (pre_b pre_c : ACell F) :
    SynthState F × ACell F :=
  let r := st.table.length
  let a_cell : ACell F := ⟨⟨r, 0⟩, pre_b.val⟩
  let b_cell : ACell F := ⟨⟨r, 1⟩, pre_c.val⟩
  let c_val := pre_b.val.bind fun b => pre_c.val.map fun c => c + b
  let c_cell : ACell F := ⟨⟨r, 2⟩, c_val⟩
  ({ st with
      table := st.table ++ [(pre_b.val, pre_c.val, c_val)]
      selOn := st.selOn ++ [r]
      copies := st.copies ++ [(pre_b.cell, a_cell.cell), (pre_c.cell, b_cell.cell)] },
   c_cell)

/-- Model of `FiboChip::expose_public` (lines 117-124): bind a cell to an instance
row by a copy constraint. -/
def expose_public {F : Type} (st : SynthState F) (cell : ACell F) (row : ℕ) :
    SynthState F :=
  { st with instCopies := st.instCopies ++ [(cell.cell, row)] }

/-- Model of `MyCircuit::synthesize` (lines 147-171), returning both the final trace
and the terminal c handle: one first row, then `for _i in 3..10` chained
rows with the sliding (pre_b, pre_c) window, then `expose_public(.., 2)`. -/
def synthAux {F : Type} [CommRing F] (a b : Option F) : SynthState F × ACell F :=
  let st0 : SynthState F := ⟨[], [], [], []⟩
  let (st1, h) := assign_first_row st0 a b
  let (st2, _pre_b, pre_c) := (List.range' 3 7).foldl
      (fun (acc : SynthState F × ACell F × ACell F) _i =>
        let (st, pre_b, pre_c) := acc
        let (st', c_cell) := assign_row st pre_b pre_c
        (st', pre_c, c_cell))
      (st1, h.2.1, h.2.2)
  (expose_public st2 pre_c 2, pre_c)

/-- The trace emitted by `MyCircuit::synthesize` for witness values a, b. -/
def synthesize {F : Type} [CommRing F] (a b : Option F) : SynthState F :=
  (synthAux a b).1

/-- Value of a cell of the wide advice table (`none` when out of range). -/
def colVal {F : Type} (row : Option F × Option F × Option F) : ℕ → Option F
  | 0 => row.1
  | 1 => row.2.1
  | 2 => row.2.2
  | _ + 3 => none

/-- Look up an assigned cell in the wide trace. -/
def cellVal {F : Type} (st : SynthState F) (c : Cell) : Option F :=
  colVal (st.table.getD c.row (none, none, none)) c.col

/-- Modelled from the spec: the external satisfiability check
(`MockProver::run` + `assert_satisfied`), whose implementation is outside
this repository.  Per §4.4 it must fail precisely when (a) an enabled
gate's polynomial evaluates nonzero, (b) a declared copy constraint's two
endpoints hold unequal values, or (c) a cell bound to a public-input row
does not match the supplied public input vector; per §5 it also requires
every assigned value to be known. -/
def satisfies {F : Type} [CommRing F] [DecidableEq F] (gates : List Gate)
    (st : SynthState F) (publics : List F) : Bool :=
  st.table.all (fun r => r.1.isSome && r.2.1.isSome && r.2.2.isSome) &&
  st.selOn.all (fun r => gates.all fun g => g.polys.all fun e =>
    decide (e.eval 1 (fun c rot => (cellVal st ⟨((r : ℤ) + rot).toNat, c⟩).getD 0) = 0)) &&
  st.copies.all (fun p => decide (cellVal st p.1 = cellVal st p.2)) &&
  st.instCopies.all (fun p => decide (cellVal st p.1 = some (publics.getD p.2 0)))

/-- Outcome of `MockProver::run(k, circuit, publics)` + `assert_satisfied`
for the wide circuit with witness seed (a, b). -/
def run {F : Type} [CommRing F] [DecidableEq F] (a b : F) (publics : List F) : Bool :=
  satisfies configure.gates (synthesize (some a) (some b)) publics

end Example1

namespace Fibo2

/-- Configuration data produced by `FiboChip::configure` in `fibo2.rs`
(lines 27-48): a single advice column (index 0), equality enabled on it and
on the instance column, and the gate `"add"` querying that column at row
offsets 0 (`Rotation::cur()`), 1 (`Rotation::next()`) and 2 (`Rotation(2)`). -/
structure FiboConfig where
  advice : ℕ
  eqAdvice : Bool
  eqInstance : Bool
  gates : List Gate
deriving Repr, DecidableEq

/-- Model of `FiboChip::configure` in `fibo2.rs`. -/
def configure : FiboConfig :=
  { advice := 0
    eqAdvice := true
    eqInstance := true
    gates := [{ name := "add"
                polys := [Expr.mul Expr.sel
                  (Expr.sub (Expr.add (Expr.advice 0 0) (Expr.advice 0 1))
                    (Expr.advice 0 2))] }] }

/-- The trace of `FiboChip::assign` for the narrow layout: the single advice
column's values in row order, the rows on which the selector was enabled,
the advice-to-instance copy constraints (advice row, instance row) recorded
by `assign_advice_from_instance`, and the returned cell (row, value). -/
structure AssignOut (F : Type) where
  vals : List (Option F)
  selOn : List ℕ
  instCopies : List (ℕ × ℕ)
  outCell : ℕ × Option F
deriving Repr, DecidableEq

/-- The `for n in 2..rows` loop of `FiboChip::assign` (lines 76-85): enable
the selector on row n while `n < rows - 2`, assign the sum of the two
previous cells at row n, and slide the (a_cell, b_cell) window. -/
def loop {F : Type} [CommRing F] (rows : ℕ) :
    List ℕ → (ℕ × Option F) → (ℕ × Option F) → List (Option F) → List ℕ →
      ((ℕ × Option F) × List (Option F) × List ℕ)
  | [], _a_cell, b_cell, vals, sel => (b_cell, vals, sel)
  | n :: ns, a_cell, b_cell, vals, sel =>
    let sel' := if n < rows - 2 then sel ++ [n] else sel
    let c_val := vAdd a_cell.2 b_cell.2
    let c_cell := (n, c_val)
    loop rows ns b_cell c_cell (vals ++ [c_val]) sel'

/-- Model of `FiboChip::assign` (lines 50-90): enable the selector on rows 0 and 1,
assign rows 0 and 1 from instance rows 0 and 1 (`assign_advice_from_instance`
assigns the instance value and records the advice-instance copy constraint),
then run the loop; the last b_cell is returned.  `inst j` is the value of
instance row j as visible during synthesis. -/
def assign {F : Type} [CommRing F] (inst : ℕ → Option F) (rows : ℕ) : AssignOut F :=
  let a_cell := (0, inst 0)
  let b_cell := (1, inst 1)
  let res :=
    loop rows (List.range' 2 (rows - 2)) a_cell b_cell [inst 0, inst 1] [0, 1]
  { vals := res.2.1, selOn := res.2.2, instCopies := [(0, 0), (1, 1)], outCell := res.1 }

/-- Model of `MyCircuit::synthesize` in `fibo2.rs` (lines 119-132): run the chip's
assign with rows = 10, then `expose_public(.., out_cell, 2)`. -/
def synthesize {F : Type} [CommRing F] (inst : ℕ → Option F) : AssignOut F :=
  let out := assign inst 10
  { out with instCopies := out.instCopies ++ [(out.outCell.1, 2)] }

/-- Modelled from the spec: the external satisfiability check for the narrow
layout (`MockProver::run` + `assert_satisfied`), outside this repository.
Per §4.4 it fails precisely when an enabled gate polynomial evaluates
nonzero, a copy constraint (here: advice row against instance row) has
unequal endpoints, or a bound public-input row mismatches; per §5 all
values must be known. -/
def satisfiesN {F : Type} [CommRing F] [DecidableEq F] (gates : List Gate)
    (o : AssignOut F) (publics : List F) : Bool :=
  o.vals.all (fun v => v.isSome) &&
  o.selOn.all (fun r => gates.all fun g => g.polys.all fun e =>
    decide (e.eval 1 (fun _c rot => ((o.vals.getD ((r : ℤ) + rot).toNat none).getD 0)) = 0)) &&
  o.instCopies.all (fun p => decide (o.vals.getD p.1 none = some (publics.getD p.2 0)))

/-- Instance-column view of a public input vector: `MockProver::run` fills
instance row j with `publics[j]` (known during synthesis). -/
def instOf {F : Type} [Zero F] (publics : List F) : ℕ → Option F :=
  fun j => some (publics.getD j 0)

/-- Outcome of `MockProver::run(k, MyCircuit, publics)` + `assert_satisfied`
for the narrow circuit. -/
def run {F : Type} [CommRing F] [DecidableEq F] (publics : List F) : Bool :=
  satisfiesN configure.gates (synthesize (instOf publics)) publics

end Fibo2

/-- The additive (Fibonacci-style) recurrence seeded by (a, b):
term 0 is a, term 1 is b, term n+2 is the sum of the previous two.
The "k-th term" of the spec (1-indexed) is `fibSeq a b (k-1)`. -/
def fibSeq {F : Type} [CommRing F] (a b : F) : ℕ → F
  | 0 => a
  | 1 => b
  | n + 2 => fibSeq a b n + fibSeq a b (n + 1)

/-- The sequence of (possibly unknown) values the narrow chip writes into
its advice column: seeded by the two instance values, then the additive
recurrence under `Value` addition. -/
def valSeq {F : Type} [CommRing F] (i0 i1 : Option F) : ℕ → Option F
  | 0 => i0
  | 1 => i1
  | n + 2 => vAdd (valSeq i0 i1 n) (valSeq i0 i1 (n + 1))

/-- The ordered list of distinct values assigned by a wide-layout trace:
the two seed values of row 0 followed by each row's computed c.  (Columns
a and b of later rows are copies, not new values.) -/
def Example1.assignedSeq {F : Type} (st : Example1.SynthState F) : List (Option F) :=
  (match st.table with
   | [] => []
   | r0 :: _ => [r0.1, r0.2.1]) ++ st.table.map fun r => r.2.2

/-- The fallible region capability consumed by the wide chip: enabling the
selector at a region offset, assigning an advice cell (column, offset,
value), and copying an existing cell into (column, offset).  Each call may
fail with a `LayoutError`; this environment is used to model the error
flow of `example1.rs` exactly as written. -/
structure Example1.RegionOps (F : Type) where
  enableSelector : ℕ → Except LayoutError Unit
  assignAdvice : ℕ → ℕ → Option F → Except LayoutError Cell
  copyAdvice : Cell → ℕ → ℕ → Except LayoutError Cell

/-- Error-flow model of `FiboChip::assign_first_row` (`example1.rs` lines
63-81): the source DISCARDS the `Result` of `selector.enable` (line 66
has no `?`), while each `assign_advice` result is propagated with `?`. -/
def Example1.assign_first_rowE {F : Type} [CommRing F] (ops : Example1.RegionOps F)
    (a b : Option F) :
    Except LayoutError (Example1.ACell F × Example1.ACell F × Example1.ACell F) := do
  let _ := ops.enableSelector 0
  let a_cell ← ops.assignAdvice 0 0 a
  let b_cell ← ops.assignAdvice 1 0 b
  let c_val := a.bind fun x => b.map fun y => x + y
  let c_cell ← ops.assignAdvice 2 0 c_val
  return (⟨a_cell, a⟩, ⟨b_cell, b⟩, ⟨c_cell, c_val⟩)

/-- Error-flow model of `FiboChip::assign_row` (`example1.rs` lines
90-114): the `Result` of `selector.enable` (line 93) is discarded; both
`copy_advice` results and the `assign_advice` result carry `?`. -/
def Example1.assign_rowE {F : Type} [CommRing F] (ops : Example1.RegionOps F)
    (pre_b pre_c : Example1.ACell F) : Except LayoutError (Example1.ACell F) := do
  let _ := ops.enableSelector 0
  let _a_cell ← ops.copyAdvice pre_b.cell 0 0
  let _b_cell ← ops.copyAdvice pre_c.cell 1 0
  let c_val := pre_b.val.bind fun b => pre_c.val.map fun c => c + b
  let c_cell ← ops.assignAdvice 2 0 c_val
  return ⟨c_cell, c_val⟩

/-- The fallible region capability consumed by the narrow chip. -/
structure Fibo2.RegionOps (F : Type) where
  enableSelector : ℕ → Except LayoutError Unit
  assignAdviceFromInstance : ℕ → ℕ → Except LayoutError (ℕ × Option F)
  assignAdvice : ℕ → Option F → Except LayoutError (ℕ × Option F)

/-- Error-flow model of the `for n in 2..rows` loop of `FiboChip::assign`
(`fibo2.rs` lines 76-85): the selector enabling inside the loop and the
advice assignment both carry `?`. -/
def Fibo2.loopE {F : Type} [CommRing F] (ops : Fibo2.RegionOps F) (rows : ℕ) :
    List ℕ → (ℕ × Option F) → (ℕ × Option F) → Except LayoutError (ℕ × Option F)
  | [], _a_cell, b_cell => .ok b_cell
  | n :: ns, a_cell, b_cell => do
    if n < rows - 2 then ops.enableSelector n else pure ()
    let c_val := vAdd a_cell.2 b_cell.2
    let c_cell ← ops.assignAdvice n c_val
    Fibo2.loopE ops rows ns b_cell c_cell

/-- Error-flow model of `FiboChip::assign` (`fibo2.rs` lines 50-90): every
`Result`, including both `selector.enable` calls on lines 58-59, carries
`?` and is propagated to the caller. -/
def Fibo2.assignE {F : Type} [CommRing F] (ops : Fibo2.RegionOps F) (rows : ℕ) :
    Except LayoutError (ℕ × Option F) := do
  let _ ← ops.enableSelector 0
  let _ ← ops.enableSelector 1
  let a_cell ← ops.assignAdviceFromInstance 0 0
  let b_cell ← ops.assignAdviceFromInstance 1 1
  Fibo2.loopE ops rows (List.range' 2 (rows - 2)) a_cell b_cell

/-- A wide-layout capability whose selector enabling always fails while
every other operation succeeds. -/
def Example1.selFailOps : Example1.RegionOps Fp :=
  { enableSelector := fun _ => .error (.synthesisFailure 0)
    assignAdvice := fun col offset _v => .ok ⟨offset, col⟩
    copyAdvice := fun _src col offset => .ok ⟨offset, col⟩ }

/-- A narrow-layout capability whose selector enabling always fails while
every other operation succeeds. -/
def Fibo2.selFailOpsN : Fibo2.RegionOps Fp :=
  { enableSelector := fun _ => .error (.synthesisFailure 0)
    assignAdviceFromInstance := fun _instRow advRow => .ok (advRow, some 1)
    assignAdvice := fun r v => .ok (r, v) }

/-- A narrow-layout capability whose in-loop advice assignment always fails
while every other operation succeeds. -/
def Fibo2.assignFailOpsN : Fibo2.RegionOps Fp :=
  { enableSelector := fun _ => .ok ()
    assignAdviceFromInstance := fun _instRow advRow => .ok (advRow, some 1)
    assignAdvice := fun _r _v => .error (.notEnoughRowsAvailable 4) }

/-- Sequencing a successful layout call just continues. -/
theorem bindOk {α β : Type} (x : α) (f : α → Except LayoutError β) :
    (Except.ok x >>= f : Except LayoutError β) = f x := rfl

/-- Sequencing a failed layout call short-circuits to the same error. -/
theorem bindError {α β : Type} (e : LayoutError) (f : α → Except LayoutError β) :
    (Except.error e >>= f : Except LayoutError β) = Except.error e := rfl

/-- Sequencing a pure unit step just continues. -/
theorem bindPureUnit {β : Type} (f : Unit → Except LayoutError β) :
    ((pure () : Except LayoutError Unit) >>= f) = f () := rfl

/-- Characterization of the narrow chip's loop: starting at row n with the
window over rows n-2 and n-1 of a sequence v satisfying the recurrence, the
loop extends the column to rows 0..n+k-1, returns the cell of the last row,
and enables the selector exactly on the visited rows below rows-2. -/
theorem Fibo2.loop_spec {F : Type} [CommRing F] (rows : ℕ) (v : ℕ → Option F)
    (hrec : ∀ m, v (m + 2) = vAdd (v m) (v (m + 1))) :
    ∀ (k n : ℕ), 2 ≤ n → ∀ (sel : List ℕ),
      Fibo2.loop rows (List.range' n k) (n - 2, v (n - 2)) (n - 1, v (n - 1))
          ((List.range n).map v) sel
        = ((n + k - 1, v (n + k - 1)), ((List.range (n + k)).map v),
            sel ++ (List.range' n k).filter (fun m => decide (m < rows - 2))) := by
  intro k
  induction k with
  | zero =>
    intro n hn sel
    simp [Fibo2.loop, List.range']
  | succ k ih =>
    intro n hn sel
    have hc : vAdd (v (n - 2)) (v (n - 1)) = v n := by
      have h := hrec (n - 2)
      rw [show n - 2 + 2 = n from by omega, show n - 2 + 1 = n - 1 from by omega] at h
      exact h.symm
    rw [List.range'_succ, Fibo2.loop]
    simp only [hc]
    have harg : ((List.range n).map v) ++ [v n] = (List.range (n + 1)).map v := by
      rw [List.range_succ, List.map_append, List.map_singleton]
    rw [harg]
    have ih2 := ih (n + 1) (by omega)
      (if n < rows - 2 then sel ++ [n] else sel)
    have e2 : n + 1 - 2 = n - 1 := by omega
    have e1 : n + 1 - 1 = n := by omega
    rw [e2, e1] at ih2
    rw [ih2]
    have hnk : n + 1 + k = n + (k + 1) := by omega
    rw [hnk]
    rw [List.filter_cons]
    by_cases h : n < rows - 2 <;> simp [h, List.append_assoc]

/-- Closed form of the narrow chip's assign for at least two rows. -/
theorem Fibo2.assign_spec {F : Type} [CommRing F] (inst : ℕ → Option F) (rows : ℕ)
    (h : 2 ≤ rows) :
    Fibo2.assign inst rows
      = { vals := (List.range rows).map (valSeq (inst 0) (inst 1))
          selOn := [0, 1] ++ (List.range' 2 (rows - 2)).filter (fun m => decide (m < rows - 2))
          instCopies := [(0, 0), (1, 1)]
          outCell := (rows - 1, valSeq (inst 0) (inst 1) (rows - 1)) } := by
  have hs := Fibo2.loop_spec rows (valSeq (inst 0) (inst 1)) (fun m => rfl)
      (rows - 2) 2 (le_refl 2) [0, 1]
  have h2 : 2 + (rows - 2) = rows := by omega
  rw [h2] at hs
  unfold Fibo2.assign
  rw [show ((0 : ℕ), inst 0) = ((2 : ℕ) - 2, valSeq (inst 0) (inst 1) (2 - 2)) from rfl,
    show ((1 : ℕ), inst 1) = ((2 : ℕ) - 1, valSeq (inst 0) (inst 1) (2 - 1)) from rfl,
    show [inst 0, inst 1] = (List.range 2).map (valSeq (inst 0) (inst 1)) from rfl]
  simp only [hs]

/-- The loop only appends to the value column. -/
theorem Fibo2.loop_vals_grow {F : Type} [CommRing F] (rows : ℕ) :
    ∀ (ns : List ℕ) (a b : ℕ × Option F) (vals : List (Option F)) (sel : List ℕ),
      ∃ t, (Fibo2.loop rows ns a b vals sel).2.1 = vals ++ t := by
  intro ns
  induction ns with
  | nil => intro a b vals sel; exact ⟨[], by simp [Fibo2.loop]⟩
  | cons n ns ih =>
    intro a b vals sel
    rw [Fibo2.loop]
    obtain ⟨t, ht⟩ := ih b (n, vAdd a.2 b.2) (vals ++ [vAdd a.2 b.2])
      (if n < rows - 2 then sel ++ [n] else sel)
    exact ⟨[vAdd a.2 b.2] ++ t, by rw [ht, List.append_assoc]⟩

/-- C1: for every pair of known field elements (a, b), the wide-layout
synthesis produces a terminal c handle holding the 10th term of the
additive recurrence seeded by (a, b); the narrow chip's assign with
rows = 10 returns a cell holding the 10th term of the recurrence seeded by
the values copied from instance rows 0 and 1; and the satisfiability check
passes for both layouts when the public output row (row 2) equals that
terminal value. -/
theorem claimC1 (a b i0 i1 : Fp) :
    (Example1.synthAux (some a) (some b)).2.val = some (fibSeq a b 9)
    ∧ (Fibo2.assign (Fibo2.instOf [i0, i1]) 10).outCell.2 = some (fibSeq i0 i1 9)
    ∧ Example1.run a b [a, b, fibSeq a b 9] = true
    ∧ Fibo2.run [i0, i1, fibSeq i0 i1 9] = true := by
  refine ⟨?_, ?_, ?_, ?_⟩
  · show some _ = some _
    rw [Option.some.injEq]
    simp only [fibSeq]
    ring
  · show some _ = some _
    rw [Option.some.injEq]
    simp only [fibSeq, show [i0, i1].getD 0 0 = i0 from rfl,
      show [i0, i1].getD 1 0 = i1 from rfl]
  · simp only [Example1.run, Example1.satisfies, Example1.synthesize, Example1.synthAux,
      Example1.assign_first_row, Example1.assign_row, Example1.expose_public,
      show List.range' 3 7 = [3, 4, 5, 6, 7, 8, 9] from rfl,
      List.foldl_cons, List.foldl_nil]
    simp only [Example1.cellVal, Example1.colVal, Expr.eval, Example1.configure,
      List.all_cons, List.all_nil, List.length_cons, List.length_nil, List.length_append,
      List.cons_append, List.nil_append, add_zero, Int.toNat_natCast, Nat.cast_ofNat,
      Int.toNat_ofNat]
    norm_num [Option.bind, decide_eq_true_eq, fibSeq]
    ring_nf
    simp
  · simp only [Fibo2.run, Fibo2.satisfiesN, Fibo2.synthesize, Fibo2.assign, Fibo2.instOf,
      show List.range' 2 8 = [2, 3, 4, 5, 6, 7, 8, 9] from rfl, Fibo2.loop]
    simp only [Expr.eval, Fibo2.configure,
      List.all_cons, List.all_nil, List.cons_append, List.nil_append,
      add_zero, Int.toNat_natCast, Nat.cast_ofNat, Int.toNat_ofNat]
    norm_num [vAdd, Option.bind, decide_eq_true_eq, fibSeq]
    ring_nf
    simp

/-- C2: with seed (1, 1) and 10 terms, the assigned value sequence is
1,1,2,3,5,8,13,21,34,55 in both layouts; the check passes on public inputs
[1,1,55] and fails on [1,1,65] for both layouts. -/
theorem claimC2 :
    Example1.assignedSeq (Example1.synthesize (some (1 : Fp)) (some 1))
      = [some 1, some 1, some 2, some 3, some 5, some 8, some 13, some 21, some 34, some 55]
    ∧ (Fibo2.assign (Fibo2.instOf [(1 : Fp), 1]) 10).vals
      = [some 1, some 1, some 2, some 3, some 5, some 8, some 13, some 21, some 34, some 55]
    ∧ Example1.run (1 : Fp) 1 [1, 1, 55] = true
    ∧ Fibo2.run [(1 : Fp), 1, 55] = true
    ∧ Example1.run (1 : Fp) 1 [1, 1, 65] = false
    ∧ Fibo2.run [(1 : Fp), 1, 65] = false := by
  decide

/-- C3 counterexample: the wide synthesis assigns 7 chained rows after the
seed row (the loop is `for _i in 3..10`), not 8 as the claim states: the
trace for seed (1, 1) has 8 rows in total, so the number of chained rows,
8 - 1 = 7, differs from 8. -/
theorem claimC3_cex :
    ¬ ((Example1.synthesize (some (1 : Fp)) (some 1)).table.length - 1 = 8) := by
  decide

/-- C3 amended: after the seed row, exactly 7 chained rows are assigned,
each copying the previous row's b cell into its column 0 and the previous
row's c cell into its column 1, and the final c handle (cell (7, 2)) is
the chain's output. -/
theorem claimC3_amended (a b : Fp) :
    (Example1.synthesize (some a) (some b)).table.length - 1 = 7
    ∧ (Example1.synthesize (some a) (some b)).copies
      = [(⟨0, 1⟩, ⟨1, 0⟩), (⟨0, 2⟩, ⟨1, 1⟩),
         (⟨0, 2⟩, ⟨2, 0⟩), (⟨1, 2⟩, ⟨2, 1⟩),
         (⟨1, 2⟩, ⟨3, 0⟩), (⟨2, 2⟩, ⟨3, 1⟩),
         (⟨2, 2⟩, ⟨4, 0⟩), (⟨3, 2⟩, ⟨4, 1⟩),
         (⟨3, 2⟩, ⟨5, 0⟩), (⟨4, 2⟩, ⟨5, 1⟩),
         (⟨4, 2⟩, ⟨6, 0⟩), (⟨5, 2⟩, ⟨6, 1⟩),
         (⟨5, 2⟩, ⟨7, 0⟩), (⟨6, 2⟩, ⟨7, 1⟩)]
    ∧ (Example1.synthAux (some a) (some b)).2.cell = ⟨7, 2⟩ :=
  ⟨rfl, rfl, rfl⟩

/-- C4: both layouts register exactly one gate, named "add", with exactly
one constraint polynomial, which evaluates to selector * (a + b - c): in
the wide layout a, b, c are the three advice columns 0, 1, 2 at the
current row (offset 0), and in the narrow layout they are the single
advice column 0 at row offsets 0, +1, +2. -/
theorem claimC4 (s : Fp) (adv : ℕ → ℤ → Fp) :
    Example1.configure.gates.length = 1
    ∧ (Example1.configure.gates.getD 0 default).name = "add"
    ∧ (Example1.configure.gates.getD 0 default).polys.length = 1
    ∧ ((Example1.configure.gates.getD 0 default).polys.getD 0 Expr.sel).eval s adv
        = s * (adv 0 0 + adv 1 0 - adv 2 0)
    ∧ Fibo2.configure.gates.length = 1
    ∧ (Fibo2.configure.gates.getD 0 default).name = "add"
    ∧ (Fibo2.configure.gates.getD 0 default).polys.length = 1
    ∧ ((Fibo2.configure.gates.getD 0 default).polys.getD 0 Expr.sel).eval s adv
        = s * (adv 0 0 + adv 0 1 - adv 0 2) :=
  ⟨rfl, rfl, rfl, rfl, rfl, rfl, rfl, rfl⟩

/-- C5: in the narrow layout, for every row n with 2 ≤ n < rows, the value
assigned at row n is the (Value-level) sum of the values at rows n-2 and
n-1; and the chip's assign records copy constraints only for rows 0 and 1
(the seed), i.e. row n is a plain advice cell. -/
theorem claimC5 (inst : ℕ → Option Fp) (rows n : ℕ) (h2 : 2 ≤ n) (hn : n < rows) :
    (Fibo2.assign inst rows).vals.getD n none
        = vAdd ((Fibo2.assign inst rows).vals.getD (n - 2) none)
            ((Fibo2.assign inst rows).vals.getD (n - 1) none)
    ∧ (Fibo2.assign inst rows).instCopies = [(0, 0), (1, 1)] := by
  have hr : 2 ≤ rows := le_trans h2 hn.le
  rw [Fibo2.assign_spec inst rows hr]
  refine ⟨?_, rfl⟩
  have hg : ∀ m, m < rows → ((List.range rows).map (valSeq (inst 0) (inst 1))).getD m none
      = valSeq (inst 0) (inst 1) m := by
    intro m hm
    simp [List.getD_eq_getElem?_getD, List.getElem?_map, List.getElem?_range, hm]
  rw [hg n hn, hg (n - 2) (by omega), hg (n - 1) (by omega)]
  conv_lhs => rw [show n = n - 2 + 2 from by omega]
  show vAdd _ (valSeq (inst 0) (inst 1) (n - 2 + 1)) = _
  rw [show n - 2 + 1 = n - 1 from by omega]

/-- C5 witness: the general statement instantiated at the concrete narrow
circuit (seed (1, 1), rows = 10, row 4). -/
theorem claimC5_witness :
    ((Fibo2.assign (Fibo2.instOf [(1 : Fp), 1]) 10).vals.getD 4 none
        = vAdd ((Fibo2.assign (Fibo2.instOf [(1 : Fp), 1]) 10).vals.getD 2 none)
            ((Fibo2.assign (Fibo2.instOf [(1 : Fp), 1]) 10).vals.getD 3 none))
    ∧ (Fibo2.assign (Fibo2.instOf [(1 : Fp), 1]) 10).instCopies = [(0, 0), (1, 1)] :=
  claimC5 (Fibo2.instOf [(1 : Fp), 1]) 10 4 (by decide) (by decide)

/-- C6: in the narrow layout, rows 0 and 1 of the advice column hold the
values of instance rows 0 and 1, and the chip records the advice-instance
copy constraints (0, 0) and (1, 1), so the seed comes from the public
input vector. -/
theorem claimC6 (inst : ℕ → Option Fp) (rows : ℕ) :
    (Fibo2.assign inst rows).vals.getD 0 none = inst 0
    ∧ (Fibo2.assign inst rows).vals.getD 1 none = inst 1
    ∧ (Fibo2.assign inst rows).instCopies = [(0, 0), (1, 1)] := by
  obtain ⟨t, ht⟩ := Fibo2.loop_vals_grow rows (List.range' 2 (rows - 2)) (0, inst 0)
    (1, inst 1) [inst 0, inst 1] [0, 1]
  have hv : (Fibo2.assign inst rows).vals = [inst 0, inst 1] ++ t := ht
  refine ⟨by rw [hv]; rfl, by rw [hv]; rfl, rfl⟩

/-- C7 counterexample: with rows = 3 the claim would make the selector
disabled on row N - 2 = 1, but the chip enables it there unconditionally:
row 1 is in the enabled set although 1 is not ≤ N - 3 = 0. -/
theorem claimC7_cex :
    (1 : ℕ) ∈ (Fibo2.assign (Fibo2.instOf [(1 : Fp), 1]) 3).selOn
    ∧ (3 : ℕ) - 2 = 1 ∧ ¬ ((1 : ℕ) ≤ 3 - 3) := by
  decide

/-- C7 amended: for every rows ≥ 4, the selector is enabled exactly on
rows 0 through rows - 3 and hence disabled on the last two rows.  (For
rows < 4 the unconditional enabling of rows 0 and 1 breaks the claim, see
the counterexample.) -/
theorem claimC7_amended (inst : ℕ → Option Fp) (rows : ℕ) (h : 4 ≤ rows) (n : ℕ) :
    n ∈ (Fibo2.assign inst rows).selOn ↔ n ≤ rows - 3 := by
  rw [Fibo2.assign_spec inst rows (by omega)]
  simp only [List.mem_append, List.mem_filter, List.mem_range'_1, decide_eq_true_eq,
    List.mem_cons, List.mem_singleton, List.not_mem_nil, or_false]
  omega

/-- C7 witness: the amended statement instantiated at rows = 10, n = 5. -/
theorem claimC7_witness :
    ((5 : ℕ) ∈ (Fibo2.assign (Fibo2.instOf [(1 : Fp), 1]) 10).selOn ↔ (5 : ℕ) ≤ 10 - 3) :=
  claimC7_amended (Fibo2.instOf [(1 : Fp), 1]) 10 (by decide) 5

/-- C8: in both layouts the terminal result cell is bound by a copy
constraint to instance row 2, and this is the only instance binding the
wide circuit makes and the only one the narrow circuit adds beyond the two
seed copies: the wide terminal cell is (7, 2) and the narrow terminal cell
is row 9. -/
theorem claimC8 (a b : Fp) (inst : ℕ → Option Fp) :
    (Example1.synthesize (some a) (some b)).instCopies
      = [((Example1.synthAux (some a) (some b)).2.cell, 2)]
    ∧ (Example1.synthAux (some a) (some b)).2.cell = ⟨7, 2⟩
    ∧ (Fibo2.synthesize inst).instCopies
      = [(0, 0), (1, 1), ((Fibo2.assign inst 10).outCell.1, 2)]
    ∧ (Fibo2.assign inst 10).outCell.1 = 9 :=
  ⟨rfl, rfl, rfl, rfl⟩

/-- C9 counterexample: in the wide chip the `Result` of `selector.enable`
is discarded (no `?` in the source), so with a capability whose selector
enabling fails and all other operations succeed, `assign_first_row` still
returns Ok: the layout error is swallowed, not propagated. -/
theorem claimC9_cex :
    Example1.selFailOps.enableSelector 0 = .error (.synthesisFailure 0)
    ∧ Example1.assign_first_rowE Example1.selFailOps (some (1 : Fp)) (some 1)
        = .ok (⟨⟨0, 0⟩, some 1⟩, ⟨⟨0, 1⟩, some 1⟩, ⟨⟨0, 2⟩, some 2⟩) :=
  ⟨rfl, rfl⟩

/-- C9 amended: in the narrow chip every layout-capability error, including
a failure of either `selector.enable`, is propagated immediately; in the
wide chip errors of `assign_advice` and `copy_advice` are propagated
immediately, but the `Result` of `selector.enable` is discarded, so the
outcome never depends on it.  Every fallible call site of both chips is
covered: the narrow prologue (both enables, both instance assigns), the
narrow loop at an arbitrary iteration with arbitrary window state (the
in-loop enable, the in-loop advice assign, and the step lemma showing a
successful iteration hands control to the rest of the loop unchanged, so
by induction a failure at any later iteration also surfaces), the
connection making the chip return exactly the loop's result after a
successful prologue, and all three wide first-row assigns and all three
wide chained-row calls. -/
theorem claimC9_amended (wops : Example1.RegionOps Fp) (nops : Fibo2.RegionOps Fp)
    (e : LayoutError) (a b : Option Fp) (pre_b pre_c : Example1.ACell Fp)
    (rows n : ℕ) (ns : List ℕ) (acell bcell c ia : ℕ × Option Fp) (ca cb : Cell) :
    (nops.enableSelector 0 = .error e → Fibo2.assignE nops rows = .error e)
    ∧ (nops.enableSelector 0 = .ok () → nops.enableSelector 1 = .error e →
        Fibo2.assignE nops rows = .error e)
    ∧ (nops.enableSelector 0 = .ok () → nops.enableSelector 1 = .ok () →
        nops.assignAdviceFromInstance 0 0 = .error e →
        Fibo2.assignE nops rows = .error e)
    ∧ (nops.enableSelector 0 = .ok () → nops.enableSelector 1 = .ok () →
        nops.assignAdviceFromInstance 0 0 = .ok ia →
        nops.assignAdviceFromInstance 1 1 = .error e →
        Fibo2.assignE nops rows = .error e)
    ∧ (nops.enableSelector 0 = .ok () → nops.enableSelector 1 = .ok () →
        nops.assignAdviceFromInstance 0 0 = .ok acell →
        nops.assignAdviceFromInstance 1 1 = .ok bcell →
        Fibo2.assignE nops rows
          = Fibo2.loopE nops rows (List.range' 2 (rows - 2)) acell bcell)
    ∧ (n < rows - 2 → nops.enableSelector n = .error e →
        Fibo2.loopE nops rows (n :: ns) acell bcell = .error e)
    ∧ ((n < rows - 2 → nops.enableSelector n = .ok ()) →
        nops.assignAdvice n (vAdd acell.2 bcell.2) = .error e →
        Fibo2.loopE nops rows (n :: ns) acell bcell = .error e)
    ∧ ((n < rows - 2 → nops.enableSelector n = .ok ()) →
        nops.assignAdvice n (vAdd acell.2 bcell.2) = .ok c →
        Fibo2.loopE nops rows (n :: ns) acell bcell = Fibo2.loopE nops rows ns bcell c)
    ∧ (wops.assignAdvice 0 0 a = .error e →
        Example1.assign_first_rowE wops a b = .error e)
    ∧ (wops.assignAdvice 0 0 a = .ok ca → wops.assignAdvice 1 0 b = .error e →
        Example1.assign_first_rowE wops a b = .error e)
    ∧ (wops.assignAdvice 0 0 a = .ok ca → wops.assignAdvice 1 0 b = .ok cb →
        wops.assignAdvice 2 0 (a.bind fun x => b.map fun y => x + y) = .error e →
        Example1.assign_first_rowE wops a b = .error e)
    ∧ (wops.copyAdvice pre_b.cell 0 0 = .error e →
        Example1.assign_rowE wops pre_b pre_c = .error e)
    ∧ (wops.copyAdvice pre_b.cell 0 0 = .ok ca →
        wops.copyAdvice pre_c.cell 1 0 = .error e →
        Example1.assign_rowE wops pre_b pre_c = .error e)
    ∧ (wops.copyAdvice pre_b.cell 0 0 = .ok ca →
        wops.copyAdvice pre_c.cell 1 0 = .ok cb →
        wops.assignAdvice 2 0 (pre_b.val.bind fun x => pre_c.val.map fun y => y + x)
          = .error e →
        Example1.assign_rowE wops pre_b pre_c = .error e)
    ∧ (∀ f g : ℕ → Except LayoutError Unit,
        Example1.assign_first_rowE { wops with enableSelector := f } a b
          = Example1.assign_first_rowE { wops with enableSelector := g } a b)
    ∧ (∀ f g : ℕ → Except LayoutError Unit,
        Example1.assign_rowE { wops with enableSelector := f } pre_b pre_c
          = Example1.assign_rowE { wops with enableSelector := g } pre_b pre_c) := by
  refine ⟨?_, ?_, ?_, ?_, ?_, ?_, ?_, ?_, ?_, ?_, ?_, ?_, ?_, ?_,
    fun f g => rfl, fun f g => rfl⟩
  · intro h1
    simp only [Fibo2.assignE, h1, bindError]
  · intro h1 h2
    simp only [Fibo2.assignE, h1, h2, bindOk, bindError]
  · intro h1 h2 h3
    simp only [Fibo2.assignE, h1, h2, h3, bindOk, bindError]
  · intro h1 h2 h3 h4
    simp only [Fibo2.assignE, h1, h2, h3, h4, bindOk, bindError]
  · intro h1 h2 h3 h4
    simp only [Fibo2.assignE, h1, h2, h3, h4, bindOk]
  · intro hn he
    simp only [Fibo2.loopE, if_pos hn, he, bindError]
  · intro hen hass
    by_cases hn : n < rows - 2
    · simp only [Fibo2.loopE, if_pos hn, hen hn, bindOk, hass, bindError]
    · simp only [Fibo2.loopE, if_neg hn, bindPureUnit, hass, bindError]
  · intro hen hass
    by_cases hn : n < rows - 2
    · simp only [Fibo2.loopE, if_pos hn, hen hn, bindOk, hass]
    · simp only [Fibo2.loopE, if_neg hn, bindPureUnit, hass, bindOk]
  · intro h1
    simp only [Example1.assign_first_rowE, h1, bindError]
  · intro h1 h2
    simp only [Example1.assign_first_rowE, h1, h2, bindOk, bindError]
  · intro h1 h2 h3
    simp only [Example1.assign_first_rowE, h1, h2, h3, bindOk, bindError]
  · intro h1
    simp only [Example1.assign_rowE, h1, bindError]
  · intro h1 h2
    simp only [Example1.assign_rowE, h1, h2, bindOk, bindError]
  · intro h1 h2 h3
    simp only [Example1.assign_rowE, h1, h2, h3, bindOk, bindError]

/-- C9 witness: the amended statement applied to concrete failing
capabilities: the narrow chip propagates a prologue selector-enable error;
an in-loop selector-enable error and an in-loop advice-assign error are
propagated from arbitrary loop positions; and, chaining the prologue
connection with the loop lemma, an advice-assign error at the first loop
iteration surfaces from the chip's assign itself. -/
theorem claimC9_witness :
    Fibo2.assignE Fibo2.selFailOpsN 10 = .error (.synthesisFailure 0)
    ∧ Fibo2.loopE Fibo2.selFailOpsN 10 [2, 3] (0, some 1) (1, some 1)
        = .error (.synthesisFailure 0)
    ∧ Fibo2.loopE Fibo2.assignFailOpsN 10 [5] (3, some 3) (4, some 5)
        = .error (.notEnoughRowsAvailable 4)
    ∧ Fibo2.assignE Fibo2.assignFailOpsN 10 = .error (.notEnoughRowsAvailable 4) := by
  refine ⟨?_, ?_, ?_, ?_⟩
  · exact (claimC9_amended Example1.selFailOps Fibo2.selFailOpsN (.synthesisFailure 0)
      (some 1) (some 1) ⟨⟨0, 1⟩, some 1⟩ ⟨⟨0, 2⟩, some 2⟩ 10 0 []
      (0, some 1) (1, some 1) (2, some 2) (0, some 1) ⟨0, 0⟩ ⟨0, 1⟩).1 rfl
  · exact (claimC9_amended Example1.selFailOps Fibo2.selFailOpsN (.synthesisFailure 0)
      (some 1) (some 1) ⟨⟨0, 1⟩, some 1⟩ ⟨⟨0, 2⟩, some 2⟩ 10 2 [3]
      (0, some 1) (1, some 1) (2, some 2) (0, some 1) ⟨0, 0⟩ ⟨0, 1⟩).2.2.2.2.2.1
      (by decide) rfl
  · exact (claimC9_amended Example1.selFailOps Fibo2.assignFailOpsN
      (.notEnoughRowsAvailable 4) (some 1) (some 1) ⟨⟨0, 1⟩, some 1⟩ ⟨⟨0, 2⟩, some 2⟩
      10 5 [] (3, some 3) (4, some 5) (5, some 8) (0, some 1) ⟨0, 0⟩
      ⟨0, 1⟩).2.2.2.2.2.2.1 (fun _ => rfl) rfl
  · have hconn := (claimC9_amended Example1.selFailOps Fibo2.assignFailOpsN
      (.notEnoughRowsAvailable 4) (some 1) (some 1) ⟨⟨0, 1⟩, some 1⟩ ⟨⟨0, 2⟩, some 2⟩
      10 2 [3, 4, 5, 6, 7, 8, 9] (0, some 1) (1, some 1) (2, some 2) (0, some 1)
      ⟨0, 0⟩ ⟨0, 1⟩).2.2.2.2.1 rfl rfl rfl rfl
    have hloop := (claimC9_amended Example1.selFailOps Fibo2.assignFailOpsN
      (.notEnoughRowsAvailable 4) (some 1) (some 1) ⟨⟨0, 1⟩, some 1⟩ ⟨⟨0, 2⟩, some 2⟩
      10 2 [3, 4, 5, 6, 7, 8, 9] (0, some 1) (1, some 1) (2, some 2) (0, some 1)
      ⟨0, 0⟩ ⟨0, 1⟩).2.2.2.2.2.2.1 (fun _ => rfl) rfl
    exact hconn.trans hloop

/-- C10: the wide circuit's only instance binding is to row 2, so the
satisfiability check's outcome is identical for any two public input
vectors that agree at row 2: the seed entries at rows 0 and 1 are never
checked. -/
theorem claimC10 (a b : Fp) (p q : List Fp) (h : p.getD 2 0 = q.getD 2 0) :
    (∀ pr ∈ (Example1.synthesize (some a) (some b)).instCopies, pr.2 = 2)
    ∧ Example1.run a b p = Example1.run a b q := by
  have hic : (Example1.synthesize (some a) (some b)).instCopies = [(⟨7, 2⟩, 2)] := rfl
  constructor
  · intro pr hpr
    rw [hic] at hpr
    simp only [List.mem_singleton] at hpr
    rw [hpr]
  · unfold Example1.run Example1.satisfies
    rw [hic]
    simp only [List.all_cons, List.all_nil, Bool.and_true]
    rw [h]

/-- C10 witness: the hyperproperty instantiated at two concrete public
input vectors agreeing at row 2 and differing at rows 0 and 1. -/
theorem claimC10_witness :
    (∀ pr ∈ (Example1.synthesize (some (1 : Fp)) (some 1)).instCopies, pr.2 = 2)
    ∧ Example1.run (1 : Fp) 1 [1, 1, 55] = Example1.run (1 : Fp) 1 [9, 8, 55] :=
  claimC10 1 1 [1, 1, 55] [9, 8, 55] rfl

end FibCircuits
